import Mathlib

/-!
Shallow embedding of the sales-CRM persistence and query layer
(`src/main.py`): the `Contact` and `Activity` records, the in-store state,
the repository operations (create / get / update contact, add activity,
kanban grouping, created-descending listing), the seeding routine, and the
cascade delete. Dates are modelled as integer seconds; the SQLAlchemy
session plus SQLite store is modelled as an explicit `Store` value threaded
through each operation, with server-assigned autoincrement ids kept in
`nextContactId` / `nextActivityId` counters and the request-time clock
passed in as a `now : Int` argument (the code calls
`datetime.datetime.utcnow()` there). Python builtin `hash` on strings is
fixed per process but varies across processes, so it enters as an explicit
parameter `pyHash : String → Int`.
-/

/-- Row of the `contacts` table (`class Contact`, src/main.py lines 28-40).
`phone`, `company` and `competitive_intel` are nullable columns, hence
`Option String`; `created_at` defaults to the insert-time clock. -/
structure Contact where
  id : Nat
  name : String
  email : String
  phone : Option String
  company : Option String
  status : String
  competitive_intel : Option String
  created_at : Int
deriving DecidableEq

/-- Row of the `activities` table (`class Activity`, src/main.py lines 42-50). -/
structure Activity where
  id : Nat
  contact_id : Nat
  description : String
  timestamp : Int
deriving DecidableEq

/-- The persistent state: the two relations in rowid (insertion) order plus
the autoincrement counters that assign server-side identifiers. -/
structure Store where
  contacts : List Contact
  activities : List Activity
  nextContactId : Nat
  nextActivityId : Nat
deriving DecidableEq

/-- A freshly initialised database: both tables empty, SQLite autoincrement
counters starting at 1. -/
def emptyStore : Store := ⟨[], [], 1, 1⟩

/-- Form data of the contact create/update routes: `name`, `email` and
`status` are required form fields (`status` defaulting to "Lead" on
create), the other three are optional and default to null. -/
structure ContactForm where
  name : String
  email : String
  phone : Option String := none
  company : Option String := none
  status : String := "Lead"
  competitive_intel : Option String := none
deriving DecidableEq

/-- Error signal of the routes that raise `HTTPException(status_code=404)`. -/
inductive RepoError where
  | notFound
deriving DecidableEq

/-- The initial `grouped` dict of `kanban_board` (src/main.py line 117):
exactly the four canonical status keys, each mapped to an empty list. -/
def grouped_init : List (String × List Contact) :=
  [("Lead", []), ("Contacted", []), ("Proposal", []), ("Closed", [])]

/-- One iteration of the grouping loop of `kanban_board` (src/main.py lines
118-120): `if c.status in grouped: grouped[c.status].append(c)`. -/
def addToGroup (g : List (String × List Contact)) (c : Contact) :
    List (String × List Contact) :=
  if c.status ∈ g.map Prod.fst then
    g.map (fun p => if p.1 = c.status then (p.1, p.2 ++ [c]) else p)
  else g

/-- `kanban_board` grouping (src/main.py lines 113-126): scan all contacts
in insertion order and bucket them by status over `grouped_init`. -/
def kanban_board (contacts : List Contact) : List (String × List Contact) :=
  contacts.foldl addToGroup grouped_init

/-- Insert one contact into a created-descending list, going past entries
with a strictly later `created_at` and stopping before the first entry that
is not strictly later; used to model the stable descending scan. -/
def insertByCreatedDesc (c : Contact) : List Contact → List Contact
  | [] => [c]
  | x :: xs =>
    if c.created_at < x.created_at then x :: insertByCreatedDesc c xs
    else c :: x :: xs

/-- Modelled from the spec: the storage engine scan
`order_by(Contact.created_at.desc())` of `list_contacts` (src/main.py line
130). The SQL engine performing the sort is not part of the repository
source; the spec fixes it to newest-first with ties in insertion order
(stable), which this insertion sort realises. -/
def sortByCreatedDesc : List Contact → List Contact
  | [] => []
  | c :: cs => insertByCreatedDesc c (sortByCreatedDesc cs)

/-- `list_contacts` (src/main.py lines 128-135): all contacts ordered by
`created_at` descending. -/
def list_contacts (st : Store) : List Contact :=
  sortByCreatedDesc st.contacts

/-- `create_contact` (src/main.py lines 145-165): build the record from the
form fields, let the store assign id and creation timestamp, persist it.
Returns the new store and the stored record. -/
def create_contact (st : Store) (now : Int) (f : ContactForm) :
    Store × Contact :=
  let new_contact : Contact :=
    { id := st.nextContactId
      name := f.name
      email := f.email
      phone := f.phone
      company := f.company
      status := f.status
      competitive_intel := f.competitive_intel
      created_at := now }
  ({ st with
      contacts := st.contacts ++ [new_contact]
      nextContactId := st.nextContactId + 1 },
   new_contact)

/-- `edit_contact` lookup (src/main.py lines 167-176):
`db.query(Contact).filter(Contact.id == contact_id).first()`, raising 404
when no row matches. This is the `getContact` of the repository layer. -/
def edit_contact (st : Store) (contact_id : Nat) : Except RepoError Contact :=
  match st.contacts.find? (fun c => c.id = contact_id) with
  | none => .error .notFound
  | some contact => .ok contact

/-- Field assignments of `update_contact` (src/main.py lines 193-198): the
six mutable columns are overwritten from the form; `id` and `created_at`
are not touched. -/
def applyFields (f : ContactForm) (c : Contact) : Contact :=
  { c with
      name := f.name
      email := f.email
      phone := f.phone
      company := f.company
      status := f.status
      competitive_intel := f.competitive_intel }

/-- Replace the first list entry whose id matches, as the ORM UPDATE of the
row found by `.filter(Contact.id == contact_id).first()` does. -/
def updateFirst (cs : List Contact) (contact_id : Nat)
    (f : Contact → Contact) : List Contact :=
  match cs with
  | [] => []
  | c :: rest =>
    if c.id = contact_id then f c :: rest
    else c :: updateFirst rest contact_id f

/-- `update_contact` (src/main.py lines 178-201): 404 when the id resolves
to no contact, otherwise full replace of the six mutable fields of the
found row. Returns the new store and the refreshed record. -/
def update_contact (st : Store) (contact_id : Nat) (f : ContactForm) :
    Store × Except RepoError Contact :=
  match st.contacts.find? (fun c => c.id = contact_id) with
  | none => (st, .error .notFound)
  | some contact =>
    ({ st with
        contacts := updateFirst st.contacts contact_id (applyFields f) },
     .ok (applyFields f contact))

/-- `add_activity` (src/main.py lines 203-217): 404 when the id resolves to
no contact and nothing is written; otherwise a new activity row for that
contact with a server-assigned id and timestamp. -/
def add_activity (st : Store) (now : Int) (contact_id : Nat)
    (description : String) : Store × Except RepoError Activity :=
  match st.contacts.find? (fun c => c.id = contact_id) with
  | none => (st, .error .notFound)
  | some contact =>
    let activity : Activity :=
      { id := st.nextActivityId
        contact_id := contact.id
        description := description
        timestamp := now }
    ({ st with
        activities := st.activities ++ [activity]
        nextActivityId := st.nextActivityId + 1 },
     .ok activity)

/-- Activities of one contact in rowid (insertion) order: the
`Contact.activities` relationship (src/main.py line 40), which selects
`activities` rows by `contact_id` with no explicit ordering, so the rows
come back in insertion order. -/
def activitiesOf (st : Store) (contact_id : Nat) : List Activity :=
  st.activities.filter (fun a => a.contact_id = contact_id)

/-- Modelled from the spec: `deleteByIdCascading` of the storage engine.
No route deletes a contact; the cascade is declared on the relationship
(src/main.py line 40, `cascade="all, delete-orphan"`), and the spec states
that deleting a Contact deletes all its Activities in one unit. -/
def delete_contact (st : Store) (contact_id : Nat) : Store :=
  { st with
      contacts := st.contacts.filter (fun c => c.id ≠ contact_id)
      activities := st.activities.filter (fun a => a.contact_id ≠ contact_id) }

/-- Referential integrity: every activity row points at an existing
contact row. -/
def Store.noOrphans (st : Store) : Prop :=
  ∀ a ∈ st.activities, ∃ c ∈ st.contacts, c.id = a.contact_id

instance (st : Store) : Decidable st.noOrphans :=
  inferInstanceAs
    (Decidable (∀ a ∈ st.activities, ∃ c ∈ st.contacts, c.id = a.contact_id))

/-- One entry of the `initial_contacts` fixture list of `seed_data`
(src/main.py lines 66-77). -/
structure SeedFixture where
  name : String
  email : String
  company : String
  status : String
  intel : String
deriving DecidableEq

/-- The literal ten-entry fixture list (src/main.py lines 66-77). -/
def initial_contacts : List SeedFixture :=
  [⟨"Alice Johnson", "alice@techcorp.com", "TechCorp", "Lead",
    "Expanding to Europe next Q."⟩,
   ⟨"Bob Smith", "bob@startups.inc", "Startups Inc", "Contacted",
    "Considering competitor X due to pricing."⟩,
   ⟨"Charlie Brown", "charlie@enterprise.global", "Enterprise Global",
    "Proposal", "Budget approval pending board meeting."⟩,
   ⟨"Diana Prince", "diana@amazonia.net", "Amazonia", "Closed",
    "Long-term contract signed."⟩,
   ⟨"Evan Wright", "evan@logistics.co", "Logistics Co", "Lead",
    "Looking for fleet management solutions."⟩,
   ⟨"Fiona Green", "fiona@ecofriendly.org", "EcoFriendly", "Contacted",
    "Grant funding secured recently."⟩,
   ⟨"George King", "george@royal.ltd", "Royal Ltd", "Proposal",
    "Competitor Y offering 20% discount."⟩,
   ⟨"Hannah White", "hannah@medical.care", "Medical Care", "Closed",
    "Needs HIPAA compliance features."⟩,
   ⟨"Ian Black", "ian@construction.works", "Construction Works", "Lead",
    "New project starting in downtown."⟩,
   ⟨"Jane Doe", "jane@unknown.net", "Unknown Net", "Contacted",
    "Skeptical about cloud deployment."⟩]

/-- The backdating day count of `seed_data` (src/main.py line 87):
`int(10 * (hash(name) % 10) / 10 + 1)` applied to the hash value. Python
`%` on a positive divisor yields a value in `[0, 10)`, matching `Int.emod`;
`10 * k / 10` is exact for `k` in `[0, 10)`, so the float division and
`int` truncation of the source equal this integer arithmetic. -/
def backdateDays (h : Int) : Int :=
  10 * (h % 10) / 10 + 1

/-- One iteration of the seeding loop (src/main.py lines 79-99): insert the
fixture contact with phone "555-0100" and a backdated creation timestamp
computed from the hash of its name, then one initial activity for it. -/
def seedOne (pyHash : String → Int) (now : Int) (st : Store)
    (data : SeedFixture) : Store :=
  let contact : Contact :=
    { id := st.nextContactId
      name := data.name
      email := data.email
      phone := some "555-0100"
      company := some data.company
      status := data.status
      competitive_intel := some data.intel
      created_at := now - 86400 * backdateDays (pyHash data.name) }
  let st1 : Store :=
    { st with
        contacts := st.contacts ++ [contact]
        nextContactId := st.nextContactId + 1 }
  let activity : Activity :=
    { id := st1.nextActivityId
      contact_id := contact.id
      description := "Initial contact created via " ++ data.status
        ++ " campaign."
      timestamp := now }
  { st1 with
      activities := st1.activities ++ [activity]
      nextActivityId := st1.nextActivityId + 1 }

/-- `seed_data` (src/main.py lines 61-102): no-op when any contact row
exists, otherwise insert the ten fixture contacts with one activity each. -/
def seed_data (pyHash : String → Int) (now : Int) (st : Store) : Store :=
  if st.contacts.isEmpty then initial_contacts.foldl (seedOne pyHash now) st
  else st

/-! ## Lemmas about the kanban grouping -/

/-- Running the grouping loop from the four canonical buckets, each bucket
ends as its initial content followed by the canonical-status filter of the
scanned contacts, in scan order. -/
theorem kanban_fold_eq (cs : List Contact) (a b p q : List Contact) :
    cs.foldl addToGroup
      [("Lead", a), ("Contacted", b), ("Proposal", p), ("Closed", q)]
      = [("Lead", a ++ cs.filter (fun c => c.status = "Lead")),
         ("Contacted", b ++ cs.filter (fun c => c.status = "Contacted")),
         ("Proposal", p ++ cs.filter (fun c => c.status = "Proposal")),
         ("Closed", q ++ cs.filter (fun c => c.status = "Closed"))] := by
  induction cs generalizing a b p q with
  | nil => simp
  | cons x xs ih =>
    rw [List.foldl_cons]
    by_cases h1 : x.status = "Lead"
    · have hstep : addToGroup
          [("Lead", a), ("Contacted", b), ("Proposal", p), ("Closed", q)] x
          = [("Lead", a ++ [x]), ("Contacted", b), ("Proposal", p),
             ("Closed", q)] := by
        simp [addToGroup, h1]
      rw [hstep, ih]
      simp [List.filter_cons, h1]
    · by_cases h2 : x.status = "Contacted"
      · have hstep : addToGroup
            [("Lead", a), ("Contacted", b), ("Proposal", p), ("Closed", q)] x
            = [("Lead", a), ("Contacted", b ++ [x]), ("Proposal", p),
               ("Closed", q)] := by
          simp [addToGroup, h2]
        rw [hstep, ih]
        simp [List.filter_cons, h1, h2]
      · by_cases h3 : x.status = "Proposal"
        · have hstep : addToGroup
              [("Lead", a), ("Contacted", b), ("Proposal", p), ("Closed", q)] x
              = [("Lead", a), ("Contacted", b), ("Proposal", p ++ [x]),
                 ("Closed", q)] := by
            simp [addToGroup, h3]
          rw [hstep, ih]
          simp [List.filter_cons, h1, h2, h3]
        · by_cases h4 : x.status = "Closed"
          · have hstep : addToGroup
                [("Lead", a), ("Contacted", b), ("Proposal", p),
                 ("Closed", q)] x
                = [("Lead", a), ("Contacted", b), ("Proposal", p),
                   ("Closed", q ++ [x])] := by
              simp [addToGroup, h4]
            rw [hstep, ih]
            simp [List.filter_cons, h1, h2, h3, h4]
          · have hstep : addToGroup
                [("Lead", a), ("Contacted", b), ("Proposal", p),
                 ("Closed", q)] x
                = [("Lead", a), ("Contacted", b), ("Proposal", p),
                   ("Closed", q)] := by
              simp [addToGroup, h1, h2, h3, h4]
            rw [hstep, ih]
            simp [List.filter_cons, h1, h2, h3, h4]

/-- The canonical-status filter splits as the sum of the four per-status
filters. -/
theorem length_filter_canonical (cs : List Contact) :
    (cs.filter (fun c =>
        c.status ∈ (["Lead", "Contacted", "Proposal", "Closed"] :
          List String))).length
      = (cs.filter (fun c => c.status = "Lead")).length
        + (cs.filter (fun c => c.status = "Contacted")).length
        + (cs.filter (fun c => c.status = "Proposal")).length
        + (cs.filter (fun c => c.status = "Closed")).length := by
  induction cs with
  | nil => rfl
  | cons x xs ih =>
    simp only [List.filter_cons]
    simp at ih
    by_cases h1 : x.status = "Lead"
    · simp [h1]; omega
    · by_cases h2 : x.status = "Contacted"
      · simp [h1, h2]; omega
      · by_cases h3 : x.status = "Proposal"
        · simp [h1, h2, h3]; omega
        · by_cases h4 : x.status = "Closed"
          · simp [h1, h2, h3, h4]; omega
          · simp [h1, h2, h3, h4]; omega

/-- The kanban grouping written in closed form: the four canonical keys in
order, each bucket the per-status filter of the scan. -/
theorem kanban_board_eq (cs : List Contact) :
    kanban_board cs
      = [("Lead", cs.filter (fun c => c.status = "Lead")),
         ("Contacted", cs.filter (fun c => c.status = "Contacted")),
         ("Proposal", cs.filter (fun c => c.status = "Proposal")),
         ("Closed", cs.filter (fun c => c.status = "Closed"))] := by
  have h := kanban_fold_eq cs [] [] [] []
  simpa [kanban_board, grouped_init] using h

/-- C1: for every store content, `kanban_board` returns a mapping with
exactly the four canonical keys Lead, Contacted, Proposal, Closed, each
present; each bucket holds exactly the contacts whose status equals its
key (in scan order), so a contact with any other status value appears in
no bucket; and the total count across the four buckets equals the count of
contacts whose status is canonical. -/
theorem kanban_board_four_buckets (cs : List Contact) :
    (kanban_board cs).map Prod.fst
      = ["Lead", "Contacted", "Proposal", "Closed"] ∧
    kanban_board cs
      = [("Lead", cs.filter (fun c => c.status = "Lead")),
         ("Contacted", cs.filter (fun c => c.status = "Contacted")),
         ("Proposal", cs.filter (fun c => c.status = "Proposal")),
         ("Closed", cs.filter (fun c => c.status = "Closed"))] ∧
    ((kanban_board cs).map (fun p => p.2.length)).sum
      = (cs.filter (fun c =>
          c.status ∈ (["Lead", "Contacted", "Proposal", "Closed"] :
            List String))).length := by
  have hb := kanban_board_eq cs
  refine ⟨by rw [hb]; rfl, hb, ?_⟩
  rw [hb, length_filter_canonical]
  simp
  omega

/-! ## Lemmas about seeding -/

/-- Seeding one fixture appends exactly one contact row. -/
theorem seedOne_contacts (pyHash : String → Int) (now : Int) (st : Store)
    (data : SeedFixture) :
    (seedOne pyHash now st data).contacts
      = st.contacts ++ [{ id := st.nextContactId
                          name := data.name
                          email := data.email
                          phone := some "555-0100"
                          company := some data.company
                          status := data.status
                          competitive_intel := some data.intel
                          created_at :=
                            now - 86400 * backdateDays (pyHash data.name) }] :=
  rfl

/-- The seeding loop grows the contact count by the fixture count. -/
theorem seed_fold_length (pyHash : String → Int) (now : Int)
    (fxs : List SeedFixture) (st : Store) :
    ((fxs.foldl (seedOne pyHash now) st).contacts).length
      = st.contacts.length + fxs.length := by
  induction fxs generalizing st with
  | nil => simp
  | cons f fs ih =>
    rw [List.foldl_cons, ih, seedOne_contacts]
    simp
    omega

/-- Every contact present after the seeding loop was present before the
loop or carries the backdated creation timestamp computed from the hash of
its own name. -/
theorem seed_fold_mem (pyHash : String → Int) (now : Int)
    (fxs : List SeedFixture) (st : Store) (c : Contact)
    (hc : c ∈ (fxs.foldl (seedOne pyHash now) st).contacts) :
    c ∈ st.contacts ∨
      c.created_at = now - 86400 * backdateDays (pyHash c.name) := by
  induction fxs generalizing st with
  | nil => exact .inl hc
  | cons f fs ih =>
    rw [List.foldl_cons] at hc
    rcases ih _ hc with h | h
    · rw [seedOne_contacts] at h
      rcases List.mem_append.mp h with h | h
      · exact .inl h
      · have hcd := List.mem_singleton.mp h
        subst hcd
        exact .inr rfl
    · exact .inr h

/-- The backdating day count always lies between 1 and 10. -/
theorem backdateDays_bounds (h : Int) :
    1 ≤ backdateDays h ∧ backdateDays h ≤ 10 := by
  unfold backdateDays
  have h0 : 0 ≤ h % 10 := Int.emod_nonneg h (by norm_num)
  have h9 : h % 10 < 10 := Int.emod_lt_of_pos h (by norm_num)
  omega

/-- C2: `seed_data` is idempotent per store lifetime: a store already
holding a contact is left untouched, and running it twice in sequence
against the same initially empty store leaves exactly the ten fixture
contacts, not twenty. -/
theorem seed_data_idempotent (pyHash : String → Int) (now₁ now₂ : Int)
    (st st₂ : Store) (hempty : st.contacts = [])
    (hnonempty : st₂.contacts ≠ []) :
    seed_data pyHash now₂ st₂ = st₂ ∧
    (seed_data pyHash now₂ (seed_data pyHash now₁ st)).contacts.length
      = 10 := by
  constructor
  · unfold seed_data
    rw [if_neg]
    simp [hnonempty]
  · have h1 : (seed_data pyHash now₁ st).contacts.length = 10 := by
      unfold seed_data
      rw [if_pos (by simp [hempty])]
      rw [seed_fold_length, hempty]
      rfl
    have h2 : (seed_data pyHash now₁ st).contacts ≠ [] := by
      intro hcon
      rw [hcon] at h1
      simp at h1
    generalize hg : seed_data pyHash now₁ st = st₁ at h1 h2 ⊢
    unfold seed_data
    rw [if_neg (by simp [h2])]
    exact h1

/-- Closed instance of `seed_data_idempotent`: a one-contact store is left
untouched, and double seeding of the empty store yields ten contacts. -/
theorem seed_data_idempotent_witness :
    seed_data (fun _ => 0) 7
        ⟨[⟨1, "A", "a@x.io", none, none, "Lead", none, 0⟩], [], 2, 1⟩
      = ⟨[⟨1, "A", "a@x.io", none, none, "Lead", none, 0⟩], [], 2, 1⟩ ∧
    (seed_data (fun _ => 0) 7
        (seed_data (fun _ => 0) 3 emptyStore)).contacts.length = 10 :=
  seed_data_idempotent (fun _ => 0) 3 7 emptyStore
    ⟨[⟨1, "A", "a@x.io", none, none, "Lead", none, 0⟩], [], 2, 1⟩
    rfl (by simp)

/-- C9: the backdated creation timestamp that seeding assigns to each
fixture contact is a function of the hash of the name of that contact and
the seeding-time clock alone — so two seeding runs sharing the hash
function (the same process seed) and the current time assign the same
timestamp to the same name — and the offset places each record between 1
and 10 days in the past. -/
theorem seed_backdate_deterministic (pyHash : String → Int) (now : Int)
    (st : Store) (hempty : st.contacts = []) (c : Contact)
    (hc : c ∈ (seed_data pyHash now st).contacts) :
    c.created_at = now - 86400 * backdateDays (pyHash c.name) ∧
    1 ≤ backdateDays (pyHash c.name) ∧ backdateDays (pyHash c.name) ≤ 10 := by
  have hmem : c ∈ st.contacts ∨
      c.created_at = now - 86400 * backdateDays (pyHash c.name) := by
    apply seed_fold_mem pyHash now initial_contacts st c
    unfold seed_data at hc
    rwa [if_pos (by simp [hempty])] at hc
  rcases hmem with h | h
  · rw [hempty] at h
    exact absurd h (List.not_mem_nil c)
  · exact ⟨h, backdateDays_bounds (pyHash c.name)⟩

/-- Closed instance of `seed_backdate_deterministic` at the all-zero hash
function: the first seeded contact is backdated exactly one day. -/
theorem seed_backdate_deterministic_witness :
    (⟨1, "Alice Johnson", "alice@techcorp.com", some "555-0100",
       some "TechCorp", "Lead", some "Expanding to Europe next Q.",
       -86400⟩ : Contact).created_at
      = 0 - 86400 * backdateDays ((fun _ => (0 : Int)) "Alice Johnson") ∧
    1 ≤ backdateDays ((fun _ => (0 : Int)) "Alice Johnson") ∧
    backdateDays ((fun _ => (0 : Int)) "Alice Johnson") ≤ 10 :=
  seed_backdate_deterministic (fun _ => 0) 0 emptyStore rfl
    ⟨1, "Alice Johnson", "alice@techcorp.com", some "555-0100",
     some "TechCorp", "Lead", some "Expanding to Europe next Q.", -86400⟩
    (by decide)

/-- C3: deleting a contact removes every activity whose `contact_id`
equals that contact's id, and when the store had referential integrity
before the deletion, no orphaned activity remains afterwards. -/
theorem delete_contact_cascades (st : Store) (ct : Contact)
    (_hct : ct ∈ st.contacts) (hno : Store.noOrphans st) :
    (∀ a ∈ (delete_contact st ct.id).activities, a.contact_id ≠ ct.id) ∧
    Store.noOrphans (delete_contact st ct.id) := by
  constructor
  · intro a ha
    have := List.of_mem_filter ha
    simpa using this
  · intro a ha
    have hmem : a ∈ st.activities := List.mem_of_mem_filter ha
    have hne : a.contact_id ≠ ct.id := by
      have := List.of_mem_filter ha
      simpa using this
    obtain ⟨c, hc, hcid⟩ := hno a hmem
    refine ⟨c, ?_, hcid⟩
    apply List.mem_filter.mpr
    refine ⟨hc, ?_⟩
    simp
    omega

/-- Closed instance of `delete_contact_cascades` on a two-contact store
with one activity per contact. -/
theorem delete_contact_cascades_witness :
    (∀ a ∈ (delete_contact
        ⟨[⟨1, "A", "a@x.io", none, none, "Lead", none, 0⟩,
          ⟨2, "B", "b@x.io", none, none, "Closed", none, 0⟩],
         [⟨1, 1, "call", 5⟩, ⟨2, 2, "mail", 6⟩], 3, 3⟩ 1).activities,
      a.contact_id ≠ (⟨1, "A", "a@x.io", none, none, "Lead", none, 0⟩ :
        Contact).id) ∧
    Store.noOrphans (delete_contact
        ⟨[⟨1, "A", "a@x.io", none, none, "Lead", none, 0⟩,
          ⟨2, "B", "b@x.io", none, none, "Closed", none, 0⟩],
         [⟨1, 1, "call", 5⟩, ⟨2, 2, "mail", 6⟩], 3, 3⟩ 1) :=
  delete_contact_cascades
    ⟨[⟨1, "A", "a@x.io", none, none, "Lead", none, 0⟩,
      ⟨2, "B", "b@x.io", none, none, "Closed", none, 0⟩],
     [⟨1, 1, "call", 5⟩, ⟨2, 2, "mail", 6⟩], 3, 3⟩
    ⟨1, "A", "a@x.io", none, none, "Lead", none, 0⟩
    (by decide) (by decide)

/-- C4: when no contact has the requested id, `add_activity` signals
NotFound and leaves the store — in particular the activity table and its
count — exactly unchanged. -/
theorem add_activity_notFound (st : Store) (now : Int) (contact_id : Nat)
    (description : String)
    (h : ∀ c ∈ st.contacts, c.id ≠ contact_id) :
    add_activity st now contact_id description = (st, .error .notFound) := by
  unfold add_activity
  have hfind : st.contacts.find? (fun c => c.id = contact_id) = none := by
    apply List.find?_eq_none.mpr
    intro c hc
    simp [h c hc]
  rw [hfind]

/-- Closed instance of `add_activity_notFound`: against a one-contact
store, id 99 yields NotFound and the unchanged store. -/
theorem add_activity_notFound_witness :
    add_activity
        ⟨[⟨1, "A", "a@x.io", none, none, "Lead", none, 0⟩],
         [⟨1, 1, "call", 5⟩], 2, 2⟩ 9 99 "ping"
      = (⟨[⟨1, "A", "a@x.io", none, none, "Lead", none, 0⟩],
          [⟨1, 1, "call", 5⟩], 2, 2⟩, .error .notFound) :=
  add_activity_notFound
    ⟨[⟨1, "A", "a@x.io", none, none, "Lead", none, 0⟩],
     [⟨1, 1, "call", 5⟩], 2, 2⟩ 9 99 "ping" (by decide)

/-- Looking up the targeted id after `updateFirst` returns the updated
version of the row that the lookup found before, for any row update that
preserves the id column. -/
theorem find?_updateFirst (cs : List Contact) (contact_id : Nat)
    (f : Contact → Contact) (hf : ∀ c, (f c).id = c.id) (c0 : Contact)
    (hfind : cs.find? (fun c => c.id = contact_id) = some c0) :
    (updateFirst cs contact_id f).find? (fun c => c.id = contact_id)
      = some (f c0) := by
  induction cs with
  | nil => simp at hfind
  | cons x xs ih =>
    by_cases hx : x.id = contact_id
    · rw [List.find?_cons_of_pos _ (by simp [hx])] at hfind
      injection hfind with h0
      subst h0
      unfold updateFirst
      rw [if_pos hx]
      rw [List.find?_cons_of_pos _ (by simp [hf, hx])]
    · rw [List.find?_cons_of_neg _ (by simp [hx])] at hfind
      unfold updateFirst
      rw [if_neg hx]
      rw [List.find?_cons_of_neg _ (by simp [hx])]
      exact ih hfind

/-- C5: when the id resolves to a stored contact, `update_contact`
performs a full replace: the refreshed record — which a subsequent
`edit_contact` lookup on the same id returns — carries exactly the six
supplied mutable fields (so omitted optional fields are cleared to none),
while its id and creation timestamp equal the values the row had before
the update. -/
theorem update_contact_full_replace (st : Store) (contact_id : Nat)
    (f : ContactForm) (c0 : Contact)
    (hfind : st.contacts.find? (fun c => c.id = contact_id) = some c0) :
    ∃ c' : Contact,
      (update_contact st contact_id f).2 = .ok c' ∧
      edit_contact (update_contact st contact_id f).1 contact_id = .ok c' ∧
      c'.name = f.name ∧ c'.email = f.email ∧ c'.phone = f.phone ∧
      c'.company = f.company ∧ c'.status = f.status ∧
      c'.competitive_intel = f.competitive_intel ∧
      c'.id = c0.id ∧ c'.created_at = c0.created_at := by
  refine ⟨applyFields f c0, ?_, ?_, rfl, rfl, rfl, rfl, rfl, rfl, rfl, rfl⟩
  · simp [update_contact, hfind]
  · have hup := find?_updateFirst st.contacts contact_id (applyFields f)
      (fun c => rfl) c0 hfind
    simp [update_contact, edit_contact, hfind, hup]

/-- Closed instance of `update_contact_full_replace` on a one-contact
store, clearing the optional fields. -/
theorem update_contact_full_replace_witness :
    ∃ c' : Contact,
      (update_contact
          ⟨[⟨1, "A", "a@x.io", some "555", some "Acme", "Lead",
             some "notes", 4⟩], [], 2, 1⟩ 1
          ⟨"B", "b@y.io", none, none, "Closed", none⟩).2 = .ok c' ∧
      edit_contact (update_contact
          ⟨[⟨1, "A", "a@x.io", some "555", some "Acme", "Lead",
             some "notes", 4⟩], [], 2, 1⟩ 1
          ⟨"B", "b@y.io", none, none, "Closed", none⟩).1 1 = .ok c' ∧
      c'.name = "B" ∧ c'.email = "b@y.io" ∧ c'.phone = none ∧
      c'.company = none ∧ c'.status = "Closed" ∧
      c'.competitive_intel = none ∧
      c'.id = (⟨1, "A", "a@x.io", some "555", some "Acme", "Lead",
        some "notes", 4⟩ : Contact).id ∧
      c'.created_at = (⟨1, "A", "a@x.io", some "555", some "Acme", "Lead",
        some "notes", 4⟩ : Contact).created_at :=
  update_contact_full_replace
    ⟨[⟨1, "A", "a@x.io", some "555", some "Acme", "Lead",
       some "notes", 4⟩], [], 2, 1⟩ 1
    ⟨"B", "b@y.io", none, none, "Closed", none⟩
    ⟨1, "A", "a@x.io", some "555", some "Acme", "Lead", some "notes", 4⟩
    (by decide)

/-- C6: `create_contact` persists a record whose id and creation timestamp
are assigned server-side (the next autoincrement id and the request-time
clock), and an immediate `edit_contact` lookup of that id returns exactly
the stored record, equal to the form input in all six submitted fields. -/
theorem create_contact_then_get (st : Store) (now : Int) (f : ContactForm)
    (h : ∀ c ∈ st.contacts, c.id ≠ st.nextContactId) :
    (create_contact st now f).2 ∈ (create_contact st now f).1.contacts ∧
    edit_contact (create_contact st now f).1 (create_contact st now f).2.id
      = .ok (create_contact st now f).2 ∧
    (create_contact st now f).2.name = f.name ∧
    (create_contact st now f).2.email = f.email ∧
    (create_contact st now f).2.phone = f.phone ∧
    (create_contact st now f).2.company = f.company ∧
    (create_contact st now f).2.status = f.status ∧
    (create_contact st now f).2.competitive_intel = f.competitive_intel ∧
    (create_contact st now f).2.id = st.nextContactId ∧
    (create_contact st now f).2.created_at = now := by
  refine ⟨?_, ?_, rfl, rfl, rfl, rfl, rfl, rfl, rfl, rfl⟩
  · simp [create_contact]
  · have hnone : st.contacts.find?
        (fun c => c.id = st.nextContactId) = none := by
      apply List.find?_eq_none.mpr
      intro c hc
      simp [h c hc]
    simp [create_contact, edit_contact, List.find?_append, hnone]

/-- Closed instance of `create_contact_then_get` against the empty store. -/
theorem create_contact_then_get_witness :
    (create_contact emptyStore 12
        ⟨"T", "t@x.io", some "555", some "Acme", "Lead", some "n"⟩).2
      ∈ (create_contact emptyStore 12
        ⟨"T", "t@x.io", some "555", some "Acme", "Lead", some "n"⟩).1.contacts ∧
    edit_contact (create_contact emptyStore 12
        ⟨"T", "t@x.io", some "555", some "Acme", "Lead", some "n"⟩).1
        (create_contact emptyStore 12
        ⟨"T", "t@x.io", some "555", some "Acme", "Lead", some "n"⟩).2.id
      = .ok (create_contact emptyStore 12
        ⟨"T", "t@x.io", some "555", some "Acme", "Lead", some "n"⟩).2 ∧
    (create_contact emptyStore 12
        ⟨"T", "t@x.io", some "555", some "Acme", "Lead", some "n"⟩).2.name
      = "T" ∧
    (create_contact emptyStore 12
        ⟨"T", "t@x.io", some "555", some "Acme", "Lead", some "n"⟩).2.email
      = "t@x.io" ∧
    (create_contact emptyStore 12
        ⟨"T", "t@x.io", some "555", some "Acme", "Lead", some "n"⟩).2.phone
      = some "555" ∧
    (create_contact emptyStore 12
        ⟨"T", "t@x.io", some "555", some "Acme", "Lead", some "n"⟩).2.company
      = some "Acme" ∧
    (create_contact emptyStore 12
        ⟨"T", "t@x.io", some "555", some "Acme", "Lead", some "n"⟩).2.status
      = "Lead" ∧
    (create_contact emptyStore 12
        ⟨"T", "t@x.io", some "555", some "Acme", "Lead",
         some "n"⟩).2.competitive_intel = some "n" ∧
    (create_contact emptyStore 12
        ⟨"T", "t@x.io", some "555", some "Acme", "Lead", some "n"⟩).2.id
      = emptyStore.nextContactId ∧
    (create_contact emptyStore 12
        ⟨"T", "t@x.io", some "555", some "Acme", "Lead",
         some "n"⟩).2.created_at = 12 :=
  create_contact_then_get emptyStore 12
    ⟨"T", "t@x.io", some "555", some "Acme", "Lead", some "n"⟩ (by decide)

/-! ## Lemmas about the created-descending listing -/

/-- Membership through `insertByCreatedDesc`. -/
theorem mem_insertByCreatedDesc {y c : Contact} {l : List Contact}
    (h : y ∈ insertByCreatedDesc c l) : y = c ∨ y ∈ l := by
  induction l with
  | nil => simpa [insertByCreatedDesc] using h
  | cons x xs ih =>
    unfold insertByCreatedDesc at h
    by_cases hx : c.created_at < x.created_at
    · rw [if_pos hx] at h
      rcases List.mem_cons.mp h with h | h
      · exact .inr (List.mem_cons.mpr (.inl h))
      · rcases ih h with h | h
        · exact .inl h
        · exact .inr (List.mem_cons.mpr (.inr h))
    · rw [if_neg hx] at h
      rcases List.mem_cons.mp h with h | h
      · exact .inl h
      · exact .inr h

/-- `insertByCreatedDesc` is a permutation of consing. -/
theorem insertByCreatedDesc_perm (c : Contact) (l : List Contact) :
    List.Perm (insertByCreatedDesc c l) (c :: l) := by
  induction l with
  | nil => simp [insertByCreatedDesc]
  | cons x xs ih =>
    unfold insertByCreatedDesc
    by_cases hx : c.created_at < x.created_at
    · rw [if_pos hx]
      exact (ih.cons x).trans (List.Perm.swap c x xs)
    · rw [if_neg hx]

/-- `insertByCreatedDesc` preserves the created-descending pairwise
order. -/
theorem pairwise_insertByCreatedDesc (c : Contact) (l : List Contact)
    (hl : l.Pairwise (fun a b => b.created_at ≤ a.created_at)) :
    (insertByCreatedDesc c l).Pairwise
      (fun a b => b.created_at ≤ a.created_at) := by
  induction l with
  | nil => simp [insertByCreatedDesc]
  | cons x xs ih =>
    rcases List.pairwise_cons.mp hl with ⟨hx1, hx2⟩
    unfold insertByCreatedDesc
    by_cases hx : c.created_at < x.created_at
    · rw [if_pos hx]
      refine List.pairwise_cons.mpr ⟨?_, ih hx2⟩
      intro y hy
      rcases mem_insertByCreatedDesc hy with h | h
      · subst h
        omega
      · exact hx1 y h
    · rw [if_neg hx]
      refine List.pairwise_cons.mpr ⟨?_, hl⟩
      intro y hy
      rcases List.mem_cons.mp hy with h | h
      · subst h
        omega
      · have := hx1 y h
        omega

/-- Elements with one fixed `created_at` value pass through
`insertByCreatedDesc` in order: the inserted contact lands in front of
every stored tie (it is only moved past strictly newer entries). -/
theorem filter_insertByCreatedDesc (c : Contact) (l : List Contact)
    (t : Int) :
    (insertByCreatedDesc c l).filter (fun x => x.created_at = t)
      = if c.created_at = t
        then c :: l.filter (fun x => x.created_at = t)
        else l.filter (fun x => x.created_at = t) := by
  induction l with
  | nil =>
    by_cases h : c.created_at = t <;> simp [insertByCreatedDesc, h]
  | cons x xs ih =>
    unfold insertByCreatedDesc
    by_cases hx : c.created_at < x.created_at
    · rw [if_pos hx]
      by_cases hxt : x.created_at = t
      · have hct : ¬c.created_at = t := by omega
        simp [List.filter_cons, hxt, hct, ih]
      · simp [List.filter_cons, hxt, ih]
    · rw [if_neg hx]
      by_cases hct : c.created_at = t <;>
        by_cases hxt : x.created_at = t <;>
          simp [List.filter_cons, hct, hxt]

/-- The created-descending scan returns a permutation of the table. -/
theorem sortByCreatedDesc_perm (cs : List Contact) :
    List.Perm (sortByCreatedDesc cs) cs := by
  induction cs with
  | nil => simp [sortByCreatedDesc]
  | cons x xs ih =>
    unfold sortByCreatedDesc
    exact (insertByCreatedDesc_perm x (sortByCreatedDesc xs)).trans
      (ih.cons x)

/-- C7: `list_contacts` returns all stored contacts (a permutation of the
table), ordered newest first by creation timestamp, and stably so: for
every timestamp value, the contacts carrying it appear in exactly their
insertion order. -/
theorem list_contacts_sorted_stable (st : Store) (t : Int) :
    List.Perm (list_contacts st) st.contacts ∧
    (list_contacts st).Pairwise (fun a b => b.created_at ≤ a.created_at) ∧
    (list_contacts st).filter (fun c => c.created_at = t)
      = st.contacts.filter (fun c => c.created_at = t) := by
  refine ⟨?_, ?_, ?_⟩
  · exact sortByCreatedDesc_perm st.contacts
  · show (sortByCreatedDesc st.contacts).Pairwise _
    induction st.contacts with
    | nil => simp [sortByCreatedDesc]
    | cons x xs ih =>
      unfold sortByCreatedDesc
      exact pairwise_insertByCreatedDesc x _ ih
  · show (sortByCreatedDesc st.contacts).filter _ = _
    induction st.contacts with
    | nil => simp [sortByCreatedDesc]
    | cons x xs ih =>
      unfold sortByCreatedDesc
      rw [filter_insertByCreatedDesc, List.filter_cons]
      by_cases hxt : x.created_at = t
      · simp [hxt, ih]
      · simp [hxt, ih]

/-- C8: the detail view of a contact exposes that contact's activities —
exactly the activity rows carrying its id — as a sublist of the activity
table in insertion order, which is ordered by timestamp (ties staying in
insertion order) whenever the stored timestamps are nondecreasing in
insertion order; the latter is the invariant the server-assigned
`utcnow` timestamps maintain under a monotone clock. -/
theorem activitiesOf_ordered (st : Store) (contact_id : Nat)
    (h : st.activities.Pairwise (fun a b => a.timestamp ≤ b.timestamp)) :
    (activitiesOf st contact_id).Sublist st.activities ∧
    (activitiesOf st contact_id).Pairwise
      (fun a b => a.timestamp ≤ b.timestamp) ∧
    ∀ a ∈ activitiesOf st contact_id, a.contact_id = contact_id := by
  refine ⟨List.filter_sublist _, ?_, ?_⟩
  · exact List.Pairwise.sublist (List.filter_sublist _) h
  · intro a ha
    have := List.of_mem_filter ha
    simpa using this

/-- Closed instance of `activitiesOf_ordered` on a store with three
activities, two of them for contact 1 with a timestamp tie. -/
theorem activitiesOf_ordered_witness :
    (activitiesOf ⟨[⟨1, "A", "a@x.io", none, none, "Lead", none, 0⟩],
        [⟨1, 1, "call", 5⟩, ⟨2, 2, "mail", 5⟩, ⟨3, 1, "note", 8⟩],
        2, 4⟩ 1).Sublist
      [⟨1, 1, "call", 5⟩, ⟨2, 2, "mail", 5⟩, ⟨3, 1, "note", 8⟩] ∧
    (activitiesOf ⟨[⟨1, "A", "a@x.io", none, none, "Lead", none, 0⟩],
        [⟨1, 1, "call", 5⟩, ⟨2, 2, "mail", 5⟩, ⟨3, 1, "note", 8⟩],
        2, 4⟩ 1).Pairwise (fun a b => a.timestamp ≤ b.timestamp) ∧
    ∀ a ∈ activitiesOf ⟨[⟨1, "A", "a@x.io", none, none, "Lead", none, 0⟩],
        [⟨1, 1, "call", 5⟩, ⟨2, 2, "mail", 5⟩, ⟨3, 1, "note", 8⟩],
        2, 4⟩ 1, a.contact_id = 1 :=
  activitiesOf_ordered
    ⟨[⟨1, "A", "a@x.io", none, none, "Lead", none, 0⟩],
     [⟨1, 1, "call", 5⟩, ⟨2, 2, "mail", 5⟩, ⟨3, 1, "note", 8⟩], 2, 4⟩ 1
    (by decide)

/-- C10: `create_contact` succeeds with the optional fields absent (the
form defaults: phone, company and competitive_intel null, status "Lead"),
persists null for each of the three optional columns, and the stored
record shows up in the created-descending listing and in the Lead bucket
of the kanban grouping like any other contact. -/
theorem create_contact_optional_fields (st : Store) (now : Int)
    (name email : String) :
    (create_contact st now { name := name, email := email }).2.phone
      = none ∧
    (create_contact st now { name := name, email := email }).2.company
      = none ∧
    (create_contact st now
      { name := name, email := email }).2.competitive_intel = none ∧
    (create_contact st now { name := name, email := email }).2.status
      = "Lead" ∧
    (create_contact st now { name := name, email := email }).2
      ∈ list_contacts (create_contact st now
        { name := name, email := email }).1 ∧
    ∃ bucket,
      ("Lead", bucket) ∈ kanban_board (create_contact st now
        { name := name, email := email }).1.contacts ∧
      (create_contact st now { name := name, email := email }).2
        ∈ bucket := by
  refine ⟨rfl, rfl, rfl, rfl, ?_, ?_⟩
  · have hmem : (create_contact st now
        { name := name, email := email }).2
        ∈ (create_contact st now { name := name, email := email }).1.contacts := by
      simp [create_contact]
    exact (sortByCreatedDesc_perm _).mem_iff.mpr hmem
  · refine ⟨(create_contact st now
      { name := name, email := email }).1.contacts.filter
        (fun c => c.status = "Lead"), ?_, ?_⟩
    · rw [kanban_board_eq]
      exact List.mem_cons_self _ _
    · apply List.mem_filter.mpr
      refine ⟨by simp [create_contact], by simp [create_contact]⟩
